import Mathlib

/-!
# Fabrik Dashboard — verification of the monitoring core

Shallow embedding of the monitoring pipeline of `backend/app`:
the machine data model (`models/machine.py`), the metric collector
(`services/ssh_manager.py`), network discovery (`services/network_scanner.py`),
the alert engine (`services/alerts.py`), the per-machine slice of the
collection loop (`services/scheduler.py`) and the websocket broadcaster
(`services/websocket_manager.py`).

Modelling conventions:
* Python floats are modelled as rationals (`ℚ`); `round(x, n)` is modelled
  exactly, with Python's round-half-to-even tie rule (`pyRound`).
* UTC timestamps are modelled as natural numbers counting whole seconds,
  which is the granularity at which they are observable in the code
  (`int(datetime.utcnow().timestamp())` in alert ids); a function that reads
  the clock takes the current value as an explicit argument, and successive
  reads inside one call are modelled as returning the same value.
* Remote I/O (SSH command output, ping results, websocket sends) is
  modelled as explicit input data: a collector run is parameterised over the
  session outcome and the probe results, discovery over the reachable set,
  broadcast over which sends raise.
* Python dicts that preserve insertion order are modelled as association
  lists; in-place object mutation is modelled functionally, except where a
  claim is about aliasing itself, where an explicit heap of references is
  used.
-/

/-! ## Data model (`backend/app/models/machine.py`) -/

/-- `MachineStatus` from `models/machine.py` lines 12-16. -/
inductive MachineStatus where
  | online
  | offline
  | degraded
  | unknown
deriving DecidableEq, Repr

/-- `CpuMetrics` from `models/machine.py` lines 19-24. -/
structure CpuMetrics where
  usage_percent : ℚ := 0
  cores : ℕ := 0
  load_avg_1m : ℚ := 0
  load_avg_5m : ℚ := 0
  load_avg_15m : ℚ := 0
deriving DecidableEq, Repr

/-- `MemoryMetrics` from `models/machine.py` lines 27-31. -/
structure MemoryMetrics where
  total_gb : ℚ := 0
  used_gb : ℚ := 0
  available_gb : ℚ := 0
  usage_percent : ℚ := 0
deriving DecidableEq, Repr

/-- `DiskMetrics` from `models/machine.py` lines 34-39. -/
structure DiskMetrics where
  total_gb : ℚ := 0
  used_gb : ℚ := 0
  available_gb : ℚ := 0
  usage_percent : ℚ := 0
  mount_point : String := "/"
deriving DecidableEq, Repr

/-- `ServiceStatus` from `models/machine.py` lines 42-45. -/
structure ServiceStatus where
  name : String
  running : Bool := false
  pid : Option ℕ := none
  uptime : Option String := none
deriving DecidableEq, Repr

/-- `AgentInfo` from `models/machine.py` lines 49-54.  These five fields are
the only declared pydantic fields of the model. -/
structure AgentInfo where
  name : String
  role : String := "agent"
  status : String := "unknown"
  current_task : Option String := none
  last_activity : Option ℕ := none
deriving DecidableEq, Repr

/-- `Machine` from `models/machine.py` lines 57-76. -/
structure Machine where
  ip : String
  name : String := ""
  hostname : Option String := none
  role : String := "agent"
  status : MachineStatus := .unknown
  ssh_user : String := "fabrik"
  ssh_port : ℕ := 22
  tags : List String := []
  description : String := ""
  os_info : String := ""
  uptime : String := ""
  cpu : CpuMetrics := {}
  memory : MemoryMetrics := {}
  disks : List DiskMetrics := []
  services : List ServiceStatus := []
  agents : List AgentInfo := []
  last_seen : Option ℕ := none
  last_scan : Option ℕ := none
  auto_discovered : Bool := false
deriving DecidableEq, Repr

/-! ## Python primitives -/

/-- Python `str.split()` without arguments: split on runs of whitespace,
dropping empty tokens. -/
def pySplitWs (s : String) : List String :=
  (s.split (fun c => c.isWhitespace)).filter (fun t => t ≠ "")

/-- Round half to even on rationals, Python's tie rule for `round`. -/
def bankersRound (q : ℚ) : ℤ :=
  let fl := ⌊q⌋
  let fr := q - fl
  if fr < 1/2 then fl
  else if 1/2 < fr then fl + 1
  else if fl % 2 = 0 then fl else fl + 1

/-- Python `round(x, d)`, modelled in exact rational arithmetic. -/
def pyRound (q : ℚ) (d : ℕ) : ℚ :=
  (bankersRound (q * (10 : ℚ) ^ d) : ℚ) / (10 : ℚ) ^ d

/-! ## Collector (`backend/app/services/ssh_manager.py`) -/

/-- One line of `df` output inside the loop of `SSHManager._collect_disks`
(`ssh_manager.py` lines 231-256): whitespace-split, require at least 6
columns, parse the three size columns as integers (a failing parse skips the
line, like the `continue` on `ValueError`), pick the divisor by the
byte-vs-kilobyte magnitude heuristic and build a `DiskMetrics`. -/
def parseDfLine (line : String) : Option DiskMetrics :=
  let parts := pySplitWs line
  if parts.length ≥ 6 then
    match (parts.get? 1).bind String.toInt?, (parts.get? 2).bind String.toInt?,
        (parts.get? 3).bind String.toInt? with
    | some total, some used, some avail =>
      let divisor : ℚ := if total < 1000000 then (1024 : ℚ) ^ 2 else (1024 : ℚ) ^ 3
      let mount := (parts.get? 5).getD "/"
      some { total_gb := pyRound ((total : ℚ) / divisor) 2
             used_gb := pyRound ((used : ℚ) / divisor) 2
             available_gb := pyRound ((avail : ℚ) / divisor) 2
             usage_percent := if 0 < total then pyRound (((used : ℚ) / (total : ℚ)) * 100) 1 else 0
             mount_point := mount }
    | _, _, _ => none
  else none

/-- `SSHManager._collect_disks` (`ssh_manager.py` lines 223-260), as a
function of the raw `df` output: skip the header line, parse the rest, and
substitute one defaulted `DiskMetrics` when nothing usable was parsed (or
the command produced no output). -/
def collect_disks (df_output : String) : List DiskMetrics :=
  let disks :=
    if df_output ≠ "" then
      (((df_output.trim).splitOn "\n").drop 1).filterMap parseDfLine
    else []
  if disks = [] then [{}] else disks

/-- The outcome of the probe battery over one live SSH session: the raw
outputs of the hostname/OS/uptime/df commands and the already-parsed results
of `_collect_cpu`, `_collect_memory`, `_collect_services`,
`_collect_agents`, which depend only on remote command output. -/
structure SshSession where
  hostname_out : String := ""
  os_out : String := ""
  uptime_out : String := ""
  cpuResult : CpuMetrics := {}
  memResult : MemoryMetrics := {}
  df_out : String := ""
  servicesResult : List ServiceStatus := []
  agentsResult : List AgentInfo := []

/-- One iteration of the degraded-escalation disk loop
(`ssh_manager.py` lines 137-139). -/
def diskEscalate (acc : Machine) (d : DiskMetrics) : Machine :=
  if d.usage_percent > (95 : ℚ) then { acc with status := .degraded } else acc

/-- `SSHManager._collect_sync` (`ssh_manager.py` lines 93-141).
`session?` is the result of `_get_client`: `none` when no SSH session could
be established.  `now` is the value of `datetime.utcnow()` during the call.
On failure: status becomes OFFLINE only from UNKNOWN, `last_scan` is
updated, everything else is untouched.  On success: all metric fields are
overwritten from the probe results, status is reset to ONLINE and then
escalated to DEGRADED by the cpu/memory check and the per-disk loop. -/
def collect_sync (session? : Option SshSession) (now : ℕ) (machine : Machine) : Machine :=
  match session? with
  | none =>
    let m := if machine.status = .unknown then { machine with status := .offline } else machine
    { m with last_scan := some now }
  | some s =>
    let m := { machine with
      status := .online
      last_scan := some now
      last_seen := some now
      hostname := some (if s.hostname_out = "" then machine.ip else s.hostname_out)
      os_info := s.os_out
      uptime := s.uptime_out
      cpu := s.cpuResult
      memory := s.memResult
      disks := collect_disks s.df_out
      services := s.servicesResult
      agents := s.agentsResult }
    let m := if m.cpu.usage_percent > (90 : ℚ) ∨ m.memory.usage_percent > (90 : ℚ) then
        { m with status := .degraded }
      else m
    m.disks.foldl diskEscalate m

/-- The threshold breach that `_collect_sync` lines 134-139 tests on the
freshly collected values of a machine record. -/
def degradedBreach (m : Machine) : Prop :=
  m.cpu.usage_percent > (90 : ℚ) ∨ m.memory.usage_percent > (90 : ℚ) ∨ ∃ d ∈ m.disks, d.usage_percent > (95 : ℚ)

instance (m : Machine) : Decidable (degradedBreach m) := by
  unfold degradedBreach; infer_instance

/-! ## Inventory and discovery (`backend/app/services/network_scanner.py`)

`NetworkScanner.machines` is a Python dict keyed by IP that preserves
insertion order; it is modelled as an association list. -/

/-- The machine registry: IP-keyed, insertion-ordered. -/
abbrev Inventory := List (String × Machine)

/-- Dict lookup `self.machines.get(ip)` / `ip in self.machines`. -/
def lookupIp (inv : Inventory) (ip : String) : Option Machine :=
  match inv with
  | [] => none
  | (k, m) :: rest => if k = ip then some m else lookupIp rest ip

/-- In-place update of the machine stored under a key (Python mutates the
`Machine` object held in the dict; the dict itself is unchanged). -/
def updateAt (inv : Inventory) (ip : String) (f : Machine → Machine) : Inventory :=
  inv.map (fun p => if p.1 = ip then (p.1, f p.2) else p)

/-- The configuration values `discover_new_machines` reads:
`defaults.ssh_user`, `defaults.ssh_port` and `auto_discovery.default_role`
(with their fallbacks already applied, `network_scanner.py` lines 109-116). -/
structure DiscoveryCfg where
  default_role : String := "agent"
  ssh_user : String := "fabrik"
  ssh_port : ℕ := 22

/-- Python `ip.split('.')[-1]`. -/
def lastOctet (ip : String) : String :=
  (ip.splitOn ".").getLastD ""

/-- The `Machine(...)` constructed for a newly discovered IP
(`network_scanner.py` lines 111-119).  All omitted fields take the model
defaults; in particular `status` starts UNKNOWN and `disks` starts empty. -/
def autoMachine (cfg : DiscoveryCfg) (tNew : ℕ) (ip : String) : Machine :=
  { ip := ip
    name := "Auto-" ++ lastOctet ip
    role := cfg.default_role
    ssh_user := cfg.ssh_user
    ssh_port := cfg.ssh_port
    auto_discovered := true
    last_seen := some tNew }

/-- Registration loop of `discover_new_machines` (`network_scanner.py`
lines 107-122): walk the discovered IPs, adding a fresh `autoMachine` for
each IP not yet in the dict and remembering which IPs were new. -/
def discoverRegister (cfg : DiscoveryCfg) (tNew : ℕ) (inv : Inventory) :
    List String → Inventory × List String
  | [] => (inv, [])
  | ip :: rest =>
    if (lookupIp inv ip).isSome then discoverRegister cfg tNew inv rest
    else
      let r := discoverRegister cfg tNew (inv ++ [(ip, autoMachine cfg tNew ip)]) rest
      (r.1, ip :: r.2)

/-- The per-machine update of the `last_seen` loop (`network_scanner.py`
lines 125-130): refresh `last_seen` and flip UNKNOWN to ONLINE. -/
def touchSeen (tNow : ℕ) (m : Machine) : Machine :=
  { m with
    last_seen := some tNow
    status := if m.status = .unknown then .online else m.status }

/-- `last_seen` loop over all discovered IPs (`network_scanner.py`
lines 124-130). -/
def discoverTouch (tNow : ℕ) (inv : Inventory) (reachable : List String) : Inventory :=
  reachable.foldl (fun acc ip => updateAt acc ip (touchSeen tNow)) inv

/-- Offline loop (`network_scanner.py` lines 132-135): every entry whose IP
is not in this cycle's discovered set is set OFFLINE. -/
def discoverOffline (inv : Inventory) (reachable : List String) : Inventory :=
  inv.map (fun p => if p.1 ∈ reachable then p else (p.1, { p.2 with status := .offline }))

/-- `NetworkScanner.discover_new_machines` (`network_scanner.py`
lines 102-137), as a function of the reachable set returned by
`scan_network`.  `tNew` is the clock value at machine creation and `tNow`
the value of the `last_seen` loop.  Returns the new inventory together with
the newly registered machine records; since Python returns the very objects
stored in the dict (later mutated by the two loops), the returned records
are the final inventory entries of the newly added IPs. -/
def discover_new_machines (cfg : DiscoveryCfg) (tNew tNow : ℕ) (inv : Inventory)
    (reachable : List String) : Inventory × List Machine :=
  let reg := discoverRegister cfg tNew inv reachable
  let inv1 := discoverTouch tNow reg.1 reachable
  let inv2 := discoverOffline inv1 reachable
  (inv2, reg.2.filterMap (lookupIp inv2))

/-! ## Alert engine (`backend/app/services/alerts.py`) -/

/-- `AlertSeverity` from `alerts.py` lines 17-20. -/
inductive AlertSeverity where
  | info
  | warning
  | critical
deriving DecidableEq, Repr

/-- `Alert` from `alerts.py` lines 23-34. -/
structure Alert where
  id : String
  severity : AlertSeverity
  machine_ip : String
  machine_name : String
  title : String
  message : String
  metric : String := ""
  value : ℚ := 0
  threshold : ℚ := 0
  created_at : ℕ
  acknowledged : Bool := false
deriving DecidableEq, Repr

/-- `THRESHOLDS` table from `alerts.py` lines 38-45. -/
def cpu_warning : ℚ := 80
/-- `THRESHOLDS["cpu_critical"]`. -/
def cpu_critical : ℚ := 95
/-- `THRESHOLDS["memory_warning"]`. -/
def memory_warning : ℚ := 85
/-- `THRESHOLDS["memory_critical"]`. -/
def memory_critical : ℚ := 95
/-- `THRESHOLDS["disk_warning"]`. -/
def disk_warning : ℚ := 85
/-- `THRESHOLDS["disk_critical"]`. -/
def disk_critical : ℚ := 95

/-- The alert id built in `AlertService._create_alert` (`alerts.py`
line 127): IP, metric name and the whole-second creation time joined with
dashes. -/
def mkAlertId (ip metric : String) (t : ℕ) : String :=
  ip ++ "-" ++ metric ++ "-" ++ toString t

/-- `AlertService._create_alert` (`alerts.py` lines 124-138).  `t` is the
whole-second clock value during the call, used both in the id and as
`created_at`. -/
def create_alert (severity : AlertSeverity) (ip name title message metric : String)
    (value threshold : ℚ) (t : ℕ) : Alert :=
  { id := mkAlertId ip metric t
    severity := severity
    machine_ip := ip
    machine_name := name
    title := title
    message := message
    metric := metric
    value := value
    threshold := threshold
    created_at := t }

/-- Python truthiness chain `machine.name or machine.hostname or machine.ip`
(`alerts.py` line 58): an empty string and `None` are falsy. -/
def displayName (m : Machine) : String :=
  if m.name ≠ "" then m.name
  else match m.hostname with
    | some h => if h ≠ "" then h else m.ip
    | none => m.ip

/-- The alerts the cpu branch of `check_machine` appends
(`alerts.py` lines 60-73). -/
def cpuAlerts (m : Machine) (name : String) (t : ℕ) : List Alert :=
  let c := m.cpu.usage_percent
  if c ≥ cpu_critical then
    [create_alert .critical m.ip name "CPU kritisch" ("CPU-Auslastung bei " ++ toString c ++ "%") "cpu" c cpu_critical t]
  else if c ≥ cpu_warning then
    [create_alert .warning m.ip name "CPU hoch" ("CPU-Auslastung bei " ++ toString c ++ "%") "cpu" c cpu_warning t]
  else []

/-- The alerts the memory branch of `check_machine` appends
(`alerts.py` lines 75-88). -/
def memoryAlerts (m : Machine) (name : String) (t : ℕ) : List Alert :=
  let v := m.memory.usage_percent
  if v ≥ memory_critical then
    [create_alert .critical m.ip name "RAM kritisch" ("RAM-Auslastung bei " ++ toString v ++ "%") "memory" v memory_critical t]
  else if v ≥ memory_warning then
    [create_alert .warning m.ip name "RAM hoch" ("RAM-Auslastung bei " ++ toString v ++ "%") "memory" v memory_warning t]
  else []

/-- The alerts one iteration of the disk loop of `check_machine` appends
(`alerts.py` lines 90-106). -/
def diskAlerts (m : Machine) (name : String) (t : ℕ) (d : DiskMetrics) : List Alert :=
  let u := d.usage_percent
  if u ≥ disk_critical then
    [create_alert .critical m.ip name "Speicher kritisch" ("Disk " ++ d.mount_point ++ " bei " ++ toString u ++ "%") "disk" u disk_critical t]
  else if u ≥ disk_warning then
    [create_alert .warning m.ip name "Speicher hoch" ("Disk " ++ d.mount_point ++ " bei " ++ toString u ++ "%") "disk" u disk_warning t]
  else []

/-- The offline branch of `check_machine` (`alerts.py` lines 108-115). -/
def offlineAlerts (m : Machine) (name : String) (t : ℕ) : List Alert :=
  if m.status = .offline then
    [create_alert .critical m.ip name "Maschine offline" (name ++ " (" ++ m.ip ++ ") ist nicht erreichbar") "status" 0 0 t]
  else []

/-- `AlertService._max_alerts` (`alerts.py` line 53). -/
def max_alerts : ℕ := 200

/-- `AlertService.check_machine` (`alerts.py` lines 55-122) as a function of
the machine, the whole-second clock value `t` and the current history:
collect the cpu, memory, per-disk and offline alerts in program order,
extend the history, trim it to the most recent `max_alerts` entries when it
exceeds the cap (`self._alerts[-200:]`), and return the new history together
with the newly created alerts. -/
def check_machine (m : Machine) (t : ℕ) (alerts : List Alert) : List Alert × List Alert :=
  let name := displayName m
  let newAlerts :=
    cpuAlerts m name t ++ memoryAlerts m name t ++
    (m.disks.flatMap (diskAlerts m name t)) ++ offlineAlerts m name t
  let hist := alerts ++ newAlerts
  let hist := if hist.length > max_alerts then hist.drop (hist.length - max_alerts) else hist
  (hist, newAlerts)

/-- `AlertService.acknowledge_alert` (`alerts.py` lines 145-150): mark the
first alert with the given id acknowledged and report whether one was
found. -/
def acknowledge_alert (alerts : List Alert) (aid : String) : List Alert × Bool :=
  match alerts with
  | [] => ([], false)
  | a :: rest =>
    if a.id = aid then ({ a with acknowledged := true } :: rest, true)
    else
      let r := acknowledge_alert rest aid
      (a :: r.1, r.2)

/-- `AlertService.clear_alerts` (`alerts.py` lines 152-153). -/
def clear_alerts : List Alert := []

/-! ## Collection cycle slice (`backend/app/services/scheduler.py`) -/

/-- The filter of `_metrics_collection_loop` (`scheduler.py` line 94):
a machine is collected this cycle iff it is not offline or has never been
scanned. -/
def collectedThisCycle (m : Machine) : Bool :=
  m.status ≠ .offline || m.last_scan = none

/-- The alerts the collection loop emits for one machine
(`scheduler.py` lines 90-110): machines failing the filter are not
collected and never reach `check_machine`; the rest are collected and the
result is passed to `check_machine` against the history `alerts`. -/
def machineCycleAlerts (session? : Option SshSession) (now t : ℕ)
    (alerts : List Alert) (m : Machine) : List Alert :=
  if collectedThisCycle m then
    (check_machine (collect_sync session? now m) t alerts).2
  else []

/-! ## Aliasing model for the collector (`scheduler.py` lines 90-102)

The scheduler passes the very `Machine` objects stored in
`scanner.machines` to `collect_metrics`, and `_collect_sync` assigns to the
attributes of its argument.  To reason about this aliasing, machine records
live in a heap of references and the inventory maps IPs to references. -/

/-- A heap of `Machine` records addressed by references, plus the
IP-to-reference dict `scanner.machines`. -/
structure SysState where
  heap : ℕ → Machine
  refs : List (String × ℕ)

/-- Dict lookup on the IP-to-reference table. -/
def lookupRef (l : List (String × ℕ)) (k : String) : Option ℕ :=
  match l with
  | [] => none
  | (k', v) :: rest => if k' = k then some v else lookupRef rest k

/-- The stored record the inventory exposes for an IP. -/
def invRecord (s : SysState) (ip : String) : Option Machine :=
  (lookupRef s.refs ip).map s.heap

/-- `_collect_sync` as executed on a shared reference: the record at `r` is
updated in place and the same reference is returned (the function returns
its argument object). -/
def collectInPlace (session? : Option SshSession) (now : ℕ) (r : ℕ) (s : SysState) :
    SysState × ℕ :=
  ({ s with heap := fun x => if x = r then collect_sync session? now (s.heap x) else s.heap x }, r)

/-- Python dict item assignment `d[k] = v`: replace the binding if the key
exists, else append it. -/
def dictSet (l : List (String × ℕ)) (k : String) (v : ℕ) : List (String × ℕ) :=
  if (lookupRef l k).isSome then l.map (fun p => if p.1 = k then (p.1, v) else p)
  else l ++ [(k, v)]

/-- The scheduler write-back `self.scanner.machines[result.ip] = result`
(`scheduler.py` line 102), on the reference returned by collection. -/
def writeBack (ip : String) (r : ℕ) (s : SysState) : SysState :=
  { s with refs := dictSet s.refs ip r }

/-! ## Broadcaster (`backend/app/services/websocket_manager.py`)

Subscribers are identified by references (`ℕ`); `fails w = true` models
`ws.send_text` raising for that subscriber during this publish. -/

/-- The send loop of `WebSocketManager.broadcast` (`websocket_manager.py`
lines 38-42): every current connection gets one send; a raising send puts
the subscriber on the `disconnected` list, a successful one delivers the
envelope.  Returns (receivers, disconnected) in iteration order. -/
def broadcastLoop (fails : ℕ → Bool) (conns : List ℕ) : List ℕ × List ℕ :=
  conns.foldl
    (fun acc w => if fails w then (acc.1, acc.2 ++ [w]) else (acc.1 ++ [w], acc.2))
    ([], [])

/-- `WebSocketManager.disconnect` (`websocket_manager.py` lines 25-28):
remove the first occurrence, if present. -/
def wsDisconnect (conns : List ℕ) (w : ℕ) : List ℕ :=
  if w ∈ conns then conns.erase w else conns

/-- `WebSocketManager.broadcast` (`websocket_manager.py` lines 30-45):
short-circuit on an empty connection list, otherwise run the send loop and
then disconnect every subscriber whose send raised.  Returns the new
connection list and the subscribers that received the envelope. -/
def broadcast (fails : ℕ → Bool) (conns : List ℕ) : List ℕ × List ℕ :=
  if conns.isEmpty then (conns, [])
  else
    let lp := broadcastLoop fails conns
    (lp.2.foldl wsDisconnect conns, lp.1)

/-- `client_count` (`websocket_manager.py` lines 47-49). -/
def client_count (conns : List ℕ) : ℕ := conns.length

/-! ## Pydantic construction of `AgentInfo` (`ssh_manager.py` lines 338-347)

`_collect_agents` calls `AgentInfo(name=..., role=..., status=...,
last_activity=..., cpu_percent=..., memory_usage=..., memory_percent=...,
command=...)`.  `AgentInfo` declares only `name`, `role`, `status`,
`current_task`, `last_activity`; pydantic's default behaviour for unknown
keyword arguments is to ignore them, so the four extra values are dropped at
construction. -/

/-- The `AgentInfo(...)` constructor call as written in `_collect_agents`,
with pydantic's ignore-extras semantics applied to the keyword arguments
that have no declared field. -/
def agentInfoInit (name role status : String) (last_activity : Option ℕ)
    (cpu_percent : ℚ) (memory_usage : String) (memory_percent : ℚ) (command : String) :
    AgentInfo :=
  { name := name, role := role, status := status, last_activity := last_activity }

/-- `model_dump` of an `AgentInfo` inside an outbound envelope: the declared
fields, in declaration order. -/
def agentDump (a : AgentInfo) : String × String × String × Option String × Option ℕ :=
  (a.name, a.role, a.status, a.current_task, a.last_activity)

/-- A hypothetical subscriber rebuilding the record from the dumped
fields. -/
def agentParse (d : String × String × String × Option String × Option ℕ) : AgentInfo :=
  { name := d.1, role := d.2.1, status := d.2.2.1, current_task := d.2.2.2.1,
    last_activity := d.2.2.2.2 }

/-! ## Basic lemmas about the collector -/

/-- On session failure, `_collect_sync` is exactly: flip UNKNOWN to OFFLINE,
refresh `last_scan`, touch nothing else. -/
theorem collect_sync_none (now : ℕ) (m : Machine) :
    collect_sync none now m =
      { m with
        status := if m.status = .unknown then .offline else m.status
        last_scan := some now } := by
  by_cases h : m.status = MachineStatus.unknown <;> simp [collect_sync, h]

/-- The disk escalation loop changes nothing but `status`. -/
theorem foldl_diskEscalate_fields (l : List DiskMetrics) (acc : Machine) :
    (l.foldl diskEscalate acc).cpu = acc.cpu ∧
    (l.foldl diskEscalate acc).memory = acc.memory ∧
    (l.foldl diskEscalate acc).disks = acc.disks := by
  induction l generalizing acc with
  | nil => exact ⟨rfl, rfl, rfl⟩
  | cons d rest ih =>
    have := ih (diskEscalate acc d)
    simpa [diskEscalate] using by
      by_cases h : d.usage_percent > (95 : ℚ) <;> simp [List.foldl_cons, diskEscalate, h, ih]

/-- If the disk loop left the record DEGRADED, either it started DEGRADED or
some disk in the iterated list breaches 95%. -/
theorem foldl_diskEscalate_degraded (l : List DiskMetrics) (acc : Machine)
    (h : (l.foldl diskEscalate acc).status = .degraded) :
    acc.status = .degraded ∨ ∃ d ∈ l, d.usage_percent > (95 : ℚ) := by
  induction l generalizing acc with
  | nil => exact .inl h
  | cons d rest ih =>
    rcases ih (diskEscalate acc d) h with h' | ⟨d', hd', hgt⟩
    · by_cases hgt : d.usage_percent > (95 : ℚ)
      · exact .inr ⟨d, by simp, hgt⟩
      · simp [diskEscalate, hgt] at h'
        exact .inl h'
    · exact .inr ⟨d', by simp [hd'], hgt⟩

/-! ## C4 and its witness-free form -/

/-- C4: when no SSH session can be established, `collect` flips UNKNOWN to
OFFLINE, leaves any other prior status unchanged, refreshes `last_scan`, and
leaves every metric field (and everything else) unchanged: the result is the
input record with exactly the status rule applied and `last_scan` set. -/
theorem c4_collect_failure_policy (now : ℕ) (m : Machine) :
    collect_sync none now m =
      { m with
        status := if m.status = .unknown then .offline else m.status
        last_scan := some now } :=
  collect_sync_none now m

/-! ## C2: alert history bound -/

/-- `acknowledge_alert` only toggles a flag on an existing entry: the
history length is unchanged. -/
theorem acknowledge_alert_length (alerts : List Alert) (aid : String) :
    (acknowledge_alert alerts aid).1.length = alerts.length := by
  induction alerts with
  | nil => rfl
  | cons a rest ih =>
    by_cases h : a.id = aid <;> simp [acknowledge_alert, h, ih]

/-- C2: after `check_machine` the history is exactly the most recent
`max_alerts = 200` entries of the extended history in creation order
(`List.drop` keeps the newest suffix, discarding oldest first), hence its
length is `min (old + new) 200 ≤ 200`; `acknowledge` never changes the
length and `clear` empties the history. -/
theorem c2_alert_history_bound (m : Machine) (t : ℕ) (alerts : List Alert) (aid : String) :
    (check_machine m t alerts).1 =
      (alerts ++ (check_machine m t alerts).2).drop
        ((alerts ++ (check_machine m t alerts).2).length - max_alerts) ∧
    (check_machine m t alerts).1.length =
      min (alerts ++ (check_machine m t alerts).2).length max_alerts ∧
    (check_machine m t alerts).1.length ≤ max_alerts ∧
    (acknowledge_alert alerts aid).1.length = alerts.length ∧
    clear_alerts = ([] : List Alert) := by
  have hfst : (check_machine m t alerts).1 =
      if (alerts ++ (check_machine m t alerts).2).length > max_alerts then
        (alerts ++ (check_machine m t alerts).2).drop
          ((alerts ++ (check_machine m t alerts).2).length - max_alerts)
      else alerts ++ (check_machine m t alerts).2 := rfl
  set L := alerts ++ (check_machine m t alerts).2 with hL
  have hmin : (check_machine m t alerts).1.length = min L.length max_alerts := by
    rw [hfst]
    by_cases h : L.length > max_alerts
    · simp only [h, if_pos, List.length_drop]
      omega
    · simp only [h, if_neg, ite_false]
      omega
  refine ⟨?_, hmin, ?_, acknowledge_alert_length alerts aid, rfl⟩
  · rw [hfst]
    by_cases h : L.length > max_alerts
    · simp [h]
    · have hz : L.length - max_alerts = 0 := by omega
      simp [h, hz]
  · rw [hmin]
    omega

/-! ## C10: broadcast prunes failed subscribers -/

/-- The send loop partitions the connection list into receivers and
disconnected subscribers, preserving order. -/
theorem broadcastLoop_eq (fails : ℕ → Bool) (conns : List ℕ) :
    broadcastLoop fails conns =
      (conns.filter (fun w => !fails w), conns.filter fails) := by
  suffices h : ∀ (l : List ℕ) (a b : List ℕ),
      l.foldl (fun acc w => if fails w then (acc.1, acc.2 ++ [w]) else (acc.1 ++ [w], acc.2)) (a, b) =
        (a ++ l.filter (fun w => !fails w), b ++ l.filter fails) by
    simpa using h conns [] []
  intro l
  induction l with
  | nil => simp
  | cons w rest ih =>
    intro a b
    by_cases h : fails w <;> simp [h, ih]

/-- Erasing, from `l`, every element of `d` when no element of `d` equals
`x` leaves a head `x` untouched. -/
theorem foldl_erase_cons_of_ne (d : List ℕ) (x : ℕ) (l : List ℕ)
    (h : ∀ w ∈ d, w ≠ x) :
    d.foldl List.erase (x :: l) = x :: d.foldl List.erase l := by
  induction d generalizing l with
  | nil => rfl
  | cons w d' ih =>
    have hwx : w ≠ x := h w (by simp)
    have : (x :: l).erase w = x :: l.erase w := by
      simp [List.erase_cons, (by simpa [eq_comm] using hwx : ¬x = w)]
    rw [List.foldl_cons, this, List.foldl_cons]
    exact ih _ (fun w' hw' => h w' (by simp [hw']))

/-- Erasing every element that fails from the original list leaves exactly
the non-failing elements, even when the list has duplicates. -/
theorem foldl_erase_filter (fails : ℕ → Bool) (l : List ℕ) :
    (l.filter fails).foldl List.erase l = l.filter (fun w => !fails w) := by
  induction l with
  | nil => rfl
  | cons x xs ih =>
    by_cases h : fails x
    · have hhead : (x :: xs).erase x = xs := by simp [List.erase_cons]
      simp only [List.filter_cons, h, if_pos, List.foldl_cons, hhead]
      simpa [h] using ih
    · have hne : ∀ w ∈ xs.filter fails, w ≠ x := by
        intro w hw
        rcases List.mem_filter.mp hw with ⟨-, hfw⟩
        intro hwx
        rw [hwx] at hfw
        exact h hfw
      simp only [List.filter_cons, h]
      simpa [h] using (foldl_erase_cons_of_ne (xs.filter fails) x xs hne).trans (by rw [ih])

/-- `wsDisconnect` is `List.erase` (`list.remove` is a no-op guarded by the
membership test). -/
theorem wsDisconnect_eq_erase (conns : List ℕ) (w : ℕ) :
    wsDisconnect conns w = conns.erase w := by
  by_cases h : w ∈ conns
  · simp [wsDisconnect, h]
  · simp [wsDisconnect, h, List.erase_of_not_mem h]

/-- Filtered-length arithmetic: failing and non-failing entries partition
the list. -/
theorem length_filter_not_add (fails : ℕ → Bool) (l : List ℕ) :
    (l.filter (fun w => !fails w)).length + (l.filter fails).length = l.length := by
  induction l with
  | nil => rfl
  | cons x xs ih =>
    by_cases h : fails x <;> simp [List.filter_cons, h] <;> omega

/-- C10: a publish delivers the envelope to exactly the subscribers whose
send does not raise; every subscriber whose send raises is dropped from the
active set as a side effect of that publish (the survivors are exactly the
non-failing ones, in order), and the reported count drops by exactly the
number of failed subscribers. -/
theorem c10_broadcast_prunes_failed (fails : ℕ → Bool) (conns : List ℕ) :
    (broadcast fails conns).2 = conns.filter (fun w => !fails w) ∧
    (broadcast fails conns).1 = conns.filter (fun w => !fails w) ∧
    client_count (broadcast fails conns).1 + (conns.filter fails).length =
      client_count conns := by
  by_cases hc : conns.isEmpty
  · rcases List.isEmpty_iff.mp hc with rfl
    simp [broadcast, client_count]
  · have h1 : (broadcast fails conns).2 = conns.filter (fun w => !fails w) := by
      simp [broadcast, hc, broadcastLoop_eq]
    have h2 : (broadcast fails conns).1 = conns.filter (fun w => !fails w) := by
      have : List.foldl wsDisconnect conns (conns.filter fails) =
          (conns.filter fails).foldl List.erase conns := by
        have hfun : wsDisconnect = fun l w => l.erase w := by
          funext l w
          exact wsDisconnect_eq_erase l w
        rw [hfun]
      simp [broadcast, hc, broadcastLoop_eq, this, foldl_erase_filter]
    exact ⟨h1, h2, by rw [h2]; exact length_filter_not_add fails conns⟩

/-! ## C9: agent fields dropped by the pydantic model -/

/-- C9 (exhibiting the defect): the `AgentInfo` constructor call in
`_collect_agents` passes `cpu_percent`, `memory_usage`, `memory_percent` and
`command`, but the `AgentInfo` model declares no such fields, so pydantic
silently drops them: the constructed record does not depend on those four
arguments at all, and concretely a container observed at 12.5% cpu / 50%
memory running `nginx` yields a record holding only name, role, status and
`last_activity`.  Serialization itself is lossless on the fields the model
does store (dump-then-parse is the identity). -/
theorem c9_agent_fields_lost :
    (∀ (name role status : String) (la : Option ℕ) (c1 c2 p1 p2 : ℚ)
        (mu1 mu2 cmd1 cmd2 : String),
      agentInfoInit name role status la c1 mu1 p1 cmd1 =
        agentInfoInit name role status la c2 mu2 p2 cmd2) ∧
    agentInfoInit "web" "container" "running" (some 7) (25/2) "1.5GiB/3GiB" 50
        "nginx -g daemon off;" =
      { name := "web", role := "container", status := "running", last_activity := some 7 } ∧
    (∀ a : AgentInfo, agentParse (agentDump a) = a) := by
  refine ⟨fun _ _ _ _ _ _ _ _ _ _ _ _ => rfl, rfl, fun a => rfl⟩

/-! ## C7: alert ids collide within one evaluation -/

/-- A root disk at 96% usage. -/
def c7disk1 : DiskMetrics := { usage_percent := 96, mount_point := "/" }

/-- A data disk at 97% usage. -/
def c7disk2 : DiskMetrics := { usage_percent := 97, mount_point := "/data" }

/-- An online machine with two critically full disks. -/
def c7machine : Machine := { ip := "10.0.0.2", status := .online, disks := [c7disk1, c7disk2] }

/-- Ids of cpu alerts. -/
theorem cpuAlerts_id (m : Machine) (name : String) (t : ℕ) (a : Alert)
    (h : a ∈ cpuAlerts m name t) : a.id = mkAlertId m.ip a.metric t := by
  unfold cpuAlerts at h
  by_cases h1 : m.cpu.usage_percent ≥ cpu_critical
  · simp [h1] at h
    subst h
    rfl
  · by_cases h2 : m.cpu.usage_percent ≥ cpu_warning
    · simp [h1, h2] at h
      subst h
      rfl
    · simp [h1, h2] at h

/-- Ids of memory alerts. -/
theorem memoryAlerts_id (m : Machine) (name : String) (t : ℕ) (a : Alert)
    (h : a ∈ memoryAlerts m name t) : a.id = mkAlertId m.ip a.metric t := by
  unfold memoryAlerts at h
  by_cases h1 : m.memory.usage_percent ≥ memory_critical
  · simp [h1] at h
    subst h
    rfl
  · by_cases h2 : m.memory.usage_percent ≥ memory_warning
    · simp [h1, h2] at h
      subst h
      rfl
    · simp [h1, h2] at h

/-- Ids of disk alerts. -/
theorem diskAlerts_id (m : Machine) (name : String) (t : ℕ) (d : DiskMetrics) (a : Alert)
    (h : a ∈ diskAlerts m name t d) : a.id = mkAlertId m.ip a.metric t := by
  unfold diskAlerts at h
  by_cases h1 : d.usage_percent ≥ disk_critical
  · simp [h1] at h
    subst h
    rfl
  · by_cases h2 : d.usage_percent ≥ disk_warning
    · simp [h1, h2] at h
      subst h
      rfl
    · simp [h1, h2] at h

/-- Ids of the unreachable alert. -/
theorem offlineAlerts_id (m : Machine) (name : String) (t : ℕ) (a : Alert)
    (h : a ∈ offlineAlerts m name t) : a.id = mkAlertId m.ip a.metric t := by
  unfold offlineAlerts at h
  by_cases h1 : m.status = MachineStatus.offline
  · simp [h1] at h
    subst h
    rfl
  · simp [h1] at h

/-- Every alert `check_machine` emits carries the id built from the
machine's IP, the alert's own metric name and the evaluation's clock
second. -/
theorem mem_check_machine_id (m : Machine) (t : ℕ) (hist : List Alert) (a : Alert)
    (ha : a ∈ (check_machine m t hist).2) : a.id = mkAlertId m.ip a.metric t := by
  have hsplit : (check_machine m t hist).2 =
      cpuAlerts m (displayName m) t ++ memoryAlerts m (displayName m) t ++
      m.disks.flatMap (diskAlerts m (displayName m) t) ++
      offlineAlerts m (displayName m) t := rfl
  rw [hsplit] at ha
  simp only [List.mem_append] at ha
  rcases ha with ((hc | hm) | hd) | ho
  · exact cpuAlerts_id m (displayName m) t a hc
  · exact memoryAlerts_id m (displayName m) t a hm
  · rcases List.mem_flatMap.mp hd with ⟨d, -, hda⟩
    exact diskAlerts_id m (displayName m) t d a hda
  · exact offlineAlerts_id m (displayName m) t a ho

/-- C7 counterexample: on a machine with two critically full disks, one
evaluation creates two different alerts (distinct mount points in the
message) with the identical id `10.0.0.2-disk-1000`: ids are not unique per
emission. -/
theorem c7_counterexample :
    ((check_machine c7machine 1000 []).2.map Alert.id) =
      ["10.0.0.2-disk-1000", "10.0.0.2-disk-1000"] ∧
    ((check_machine c7machine 1000 []).2.map Alert.message) =
      ["Disk / bei 96%", "Disk /data bei 97%"] := by
  exact ⟨rfl, rfl⟩

/-- C7 amended: the alert id is a function of machine IP, metric name and
whole-second creation time only, so any two alerts emitted in the same
evaluation for the same metric name — such as two disk alerts for different
mount points — share the same id. -/
theorem c7_amended_same_metric_shares_id (m : Machine) (t : ℕ) (hist : List Alert)
    (a b : Alert) (ha : a ∈ (check_machine m t hist).2) (hb : b ∈ (check_machine m t hist).2)
    (hmet : a.metric = b.metric) : a.id = b.id := by
  rw [mem_check_machine_id m t hist a ha, mem_check_machine_id m t hist b hb, hmet]

/-- The first disk alert of the C7 evaluation. -/
def c7alert1 : Alert :=
  create_alert .critical "10.0.0.2" "10.0.0.2" "Speicher kritisch" "Disk / bei 96%" "disk" 96
    disk_critical 1000

/-- The second disk alert of the C7 evaluation. -/
def c7alert2 : Alert :=
  create_alert .critical "10.0.0.2" "10.0.0.2" "Speicher kritisch" "Disk /data bei 97%" "disk" 97
    disk_critical 1000

/-- Witness for the amended C7 theorem at a concrete evaluation. -/
theorem c7_amended_witness :
    c7alert1 ∈ (check_machine c7machine 1000 []).2 ∧
    c7alert2 ∈ (check_machine c7machine 1000 []).2 ∧
    c7alert1.metric = c7alert2.metric ∧
    c7alert1.id = c7alert2.id := by
  have h1 : c7alert1 ∈ (check_machine c7machine 1000 []).2 := by decide
  have h2 : c7alert2 ∈ (check_machine c7machine 1000 []).2 := by decide
  exact ⟨h1, h2, rfl, c7_amended_same_metric_shares_id c7machine 1000 [] c7alert1 c7alert2 h1 h2 rfl⟩

/-! ## C5: collect mutates the inventory's record in place -/

/-- A machine known only by IP (status UNKNOWN, never scanned). -/
def c5machine : Machine := { ip := "10.0.0.2" }

/-- A system state whose inventory stores `c5machine` at reference 0. -/
def c5state : SysState := { heap := fun _ => c5machine, refs := [("10.0.0.2", 0)] }

/-- C5 counterexample: running `collect` on the reference the inventory
stores changes the record readable through the inventory before any
write-back happens — `collect` does not operate on a private copy. -/
theorem c5_counterexample :
    invRecord (collectInPlace none 3 0 c5state).1 "10.0.0.2" ≠ invRecord c5state "10.0.0.2" := by
  decide

/-- Replacing the value stored under a key of a duplicate-free table with
the value it already holds changes nothing. -/
theorem mapReplace_self (refs : List (String × ℕ)) (ip : String) (r : ℕ)
    (hnd : (refs.map Prod.fst).Nodup) (h : lookupRef refs ip = some r) :
    refs.map (fun p => if p.1 = ip then (p.1, r) else p) = refs := by
  induction refs with
  | nil => rfl
  | cons p rest ih =>
    obtain ⟨k, v⟩ := p
    simp only [List.map_cons, List.nodup_cons] at hnd
    by_cases hk : k = ip
    · subst hk
      have hv : v = r := by
        have : lookupRef ((k, v) :: rest) k = some v := by simp [lookupRef]
        rw [this] at h
        exact Option.some_inj.mp h
      subst hv
      have hrest : rest.map (fun p => if p.1 = k then (p.1, v) else p) = rest := by
        have : ∀ q ∈ rest, (fun p => if p.1 = k then (p.1, v) else p) q = q := by
          intro q hq
          have : q.1 ≠ k := by
            intro hqk
            exact hnd.1 (hqk ▸ List.mem_map_of_mem Prod.fst hq)
          simp [this]
        simpa using List.map_congr_left this
      simp [hrest]
    · have hlook : lookupRef rest ip = some r := by
        have : lookupRef ((k, v) :: rest) ip = lookupRef rest ip := by simp [lookupRef, hk]
        rw [← this]
        exact h
      simp [hk, ih hnd.2 hlook]

/-- C5 amended: `collect` mutates and returns the very record it is given.
When the inventory maps `ip` to the reference being collected, collection
itself already updates the record the inventory exposes (no write-back is
needed for that), the returned reference is the argument reference, and the
scheduler's write-back `machines[result.ip] = result` is a no-op on the
state. -/
theorem c5_amended_collect_in_place (s : SysState) (ip : String) (r : ℕ)
    (session? : Option SshSession) (now : ℕ)
    (hnd : (s.refs.map Prod.fst).Nodup) (h : lookupRef s.refs ip = some r) :
    (collectInPlace session? now r s).2 = r ∧
    invRecord (collectInPlace session? now r s).1 ip =
      some (collect_sync session? now (s.heap r)) ∧
    writeBack ip (collectInPlace session? now r s).2 (collectInPlace session? now r s).1 =
      (collectInPlace session? now r s).1 := by
  refine ⟨rfl, ?_, ?_⟩
  · simp [invRecord, collectInPlace, h]
  · simp only [writeBack, collectInPlace, dictSet, h, Option.isSome_some, if_pos]
    have := mapReplace_self s.refs ip r hnd h
    simp [this]

/-- Witness for the amended C5 theorem at the concrete state. -/
theorem c5_amended_witness :
    invRecord (collectInPlace none 3 0 c5state).1 "10.0.0.2" =
      some (collect_sync none 3 (c5state.heap 0)) ∧
    writeBack "10.0.0.2" (collectInPlace none 3 0 c5state).2 (collectInPlace none 3 0 c5state).1 =
      (collectInPlace none 3 0 c5state).1 :=
  ⟨(c5_amended_collect_in_place c5state "10.0.0.2" 0 none 3 (by decide) (by decide)).2.1,
   (c5_amended_collect_in_place c5state "10.0.0.2" 0 none 3 (by decide) (by decide)).2.2⟩

/-! ## Lemmas about inventory lookup and the discovery phases -/

/-- Unfolding `lookupIp` one entry. -/
theorem lookupIp_cons (k : String) (v : Machine) (rest : Inventory) (ip : String) :
    lookupIp ((k, v) :: rest) ip = if k = ip then some v else lookupIp rest ip := rfl

/-- A key bound in the left part of an appended table keeps its binding. -/
theorem lookupIp_append_some {l1 : Inventory} (l2 : Inventory) {ip : String} {m : Machine}
    (h : lookupIp l1 ip = some m) : lookupIp (l1 ++ l2) ip = some m := by
  induction l1 with
  | nil => simp [lookupIp] at h
  | cons p rest ih =>
    obtain ⟨k, v⟩ := p
    by_cases hk : k = ip
    · rw [lookupIp_cons, if_pos hk] at h
      rw [List.cons_append, lookupIp_cons, if_pos hk]
      exact h
    · rw [lookupIp_cons, if_neg hk] at h
      rw [List.cons_append, lookupIp_cons, if_neg hk]
      exact ih h

/-- A key unbound in the left part of an appended table is looked up in the
right part. -/
theorem lookupIp_append_none {l1 : Inventory} (l2 : Inventory) {ip : String}
    (h : lookupIp l1 ip = none) : lookupIp (l1 ++ l2) ip = lookupIp l2 ip := by
  induction l1 with
  | nil => rfl
  | cons p rest ih =>
    obtain ⟨k, v⟩ := p
    by_cases hk : k = ip
    · rw [lookupIp_cons, if_pos hk] at h
      exact absurd h (by simp)
    · rw [lookupIp_cons, if_neg hk] at h
      rw [List.cons_append, lookupIp_cons, if_neg hk]
      exact ih h

/-- `updateAt` rewrites exactly the binding of its key. -/
theorem lookupIp_updateAt (inv : Inventory) (k : String) (f : Machine → Machine) (ip : String) :
    lookupIp (updateAt inv k f) ip =
      if ip = k then (lookupIp inv ip).map f else lookupIp inv ip := by
  induction inv with
  | nil => simp [updateAt, lookupIp]
  | cons p rest ih =>
    obtain ⟨k', v⟩ := p
    have hstep : updateAt ((k', v) :: rest) k f =
        (if k' = k then (k', f v) else (k', v)) :: updateAt rest k f := by
      simp [updateAt]
    by_cases hk' : k' = k
    · by_cases hip : k' = ip
      · have hipk : ip = k := hip.symm.trans hk'
        rw [hstep, if_pos hk', lookupIp_cons, if_pos hip, if_pos hipk, lookupIp_cons, if_pos hip]
        rfl
      · have hipk : ¬ip = k := fun h => hip (hk'.trans h.symm)
        rw [hstep, if_pos hk', lookupIp_cons, if_neg hip, ih, if_neg hipk, if_neg hipk,
          lookupIp_cons, if_neg hip]
    · by_cases hip : k' = ip
      · have hipk : ¬ip = k := fun h => hk' (hip.trans h)
        rw [hstep, if_neg hk', lookupIp_cons, if_pos hip, if_neg hipk, lookupIp_cons, if_pos hip]
      · rw [hstep, if_neg hk', lookupIp_cons, if_neg hip, ih, lookupIp_cons, if_neg hip]

/-- Looking up a present key in a key-indexed map of records. -/
theorem lookupIp_map_entries (ips : List String) (f : String → Machine) (ip : String)
    (h : ip ∈ ips) : lookupIp (ips.map (fun i => (i, f i))) ip = some (f ip) := by
  induction ips with
  | nil => simp at h
  | cons i rest ih =>
    by_cases hi : i = ip
    · subst hi
      simp [lookupIp_cons]
    · have : ip ∈ rest := by
        rcases List.mem_cons.mp h with h' | h'
        · exact absurd h'.symm hi
        · exact h'
      simp [lookupIp_cons, hi, ih this]

/-- Newly registered entries leave existing bindings untouched. -/
theorem discoverRegister_lookup_some (cfg : DiscoveryCfg) (t : ℕ) (reachable : List String)
    (inv : Inventory) (ip : String) (m : Machine) (h : lookupIp inv ip = some m) :
    lookupIp (discoverRegister cfg t inv reachable).1 ip = some m := by
  induction reachable generalizing inv with
  | nil => exact h
  | cons r rest ih =>
    by_cases hr : (lookupIp inv r).isSome
    · simp only [discoverRegister, hr, if_pos]
      exact ih inv h
    · simp only [discoverRegister, hr, if_neg, Bool.false_eq_true]
      exact ih (inv ++ [(r, autoMachine cfg t r)]) (lookupIp_append_some _ h)

/-- Exact shape of the registration phase on a duplicate-free reachable set:
the inventory is extended by one auto machine per not-yet-known reachable
IP, and those IPs (in order) are returned. -/
theorem discoverRegister_spec (cfg : DiscoveryCfg) (t : ℕ) (reachable : List String)
    (hnd : reachable.Nodup) (inv : Inventory) :
    discoverRegister cfg t inv reachable =
      (inv ++ (reachable.filter (fun ip => (lookupIp inv ip).isNone)).map
          (fun ip => (ip, autoMachine cfg t ip)),
        reachable.filter (fun ip => (lookupIp inv ip).isNone)) := by
  induction reachable generalizing inv with
  | nil => simp [discoverRegister]
  | cons r rest ih =>
    rcases List.nodup_cons.mp hnd with ⟨hr_not, hnd'⟩
    by_cases hr : (lookupIp inv r).isSome
    · have hfilter : (r :: rest).filter (fun ip => (lookupIp inv ip).isNone) =
          rest.filter (fun ip => (lookupIp inv ip).isNone) := by
        rcases Option.isSome_iff_exists.mp hr with ⟨x, hx⟩
        simp [List.filter_cons, hx]
      simp only [discoverRegister, hr, if_pos, hfilter]
      exact ih hnd' inv
    · have hnone : lookupIp inv r = none := Option.not_isSome_iff_eq_none.mp hr
      have hfilter_cons : (r :: rest).filter (fun ip => (lookupIp inv ip).isNone) =
          r :: rest.filter (fun ip => (lookupIp inv ip).isNone) := by
        simp [List.filter_cons, hnone]
      have hfilter_shift : rest.filter
            (fun ip => (lookupIp (inv ++ [(r, autoMachine cfg t r)]) ip).isNone) =
          rest.filter (fun ip => (lookupIp inv ip).isNone) := by
        apply List.filter_congr
        intro i hi
        have hir : i ≠ r := fun hir => hr_not (hir ▸ hi)
        cases hcase : lookupIp inv i with
        | some v => simp [lookupIp_append_some _ hcase, hcase]
        | none => simp [lookupIp_append_none _ hcase, hcase, lookupIp_cons, lookupIp, Ne.symm hir]
      simp only [discoverRegister, hr, if_neg, Bool.false_eq_true, hfilter_cons]
      rw [ih hnd' (inv ++ [(r, autoMachine cfg t r)])]
      simp [hfilter_shift, List.append_assoc]

/-- The `last_seen` loop does not touch IPs outside the discovered set. -/
theorem discoverTouch_lookup_not_mem (t : ℕ) (reachable : List String) (inv : Inventory)
    (ip : String) (h : ip ∉ reachable) :
    lookupIp (discoverTouch t inv reachable) ip = lookupIp inv ip := by
  induction reachable generalizing inv with
  | nil => rfl
  | cons r rest ih =>
    have hr : ip ≠ r := fun hr => h (hr ▸ List.mem_cons_self r rest)
    have hrest : ip ∉ rest := fun h' => h (List.mem_cons_of_mem r h')
    simp only [discoverTouch, List.foldl_cons]
    rw [show List.foldl (fun acc ip => updateAt acc ip (touchSeen t)) (updateAt inv r (touchSeen t)) rest =
        discoverTouch t (updateAt inv r (touchSeen t)) rest from rfl]
    rw [ih (updateAt inv r (touchSeen t)) hrest, lookupIp_updateAt, if_neg hr]

/-- On a duplicate-free discovered set, the `last_seen` loop applies
`touchSeen` exactly once to every discovered IP's record. -/
theorem discoverTouch_lookup_mem (t : ℕ) (reachable : List String) (hnd : reachable.Nodup)
    (inv : Inventory) (ip : String) (h : ip ∈ reachable) :
    lookupIp (discoverTouch t inv reachable) ip = (lookupIp inv ip).map (touchSeen t) := by
  induction reachable generalizing inv with
  | nil => simp at h
  | cons r rest ih =>
    rcases List.nodup_cons.mp hnd with ⟨hr_not, hnd'⟩
    simp only [discoverTouch, List.foldl_cons]
    rw [show List.foldl (fun acc ip => updateAt acc ip (touchSeen t)) (updateAt inv r (touchSeen t)) rest =
        discoverTouch t (updateAt inv r (touchSeen t)) rest from rfl]
    by_cases hip : ip = r
    · subst hip
      rw [discoverTouch_lookup_not_mem t rest _ ip hr_not, lookupIp_updateAt, if_pos rfl]
    · have hrest : ip ∈ rest := by
        rcases List.mem_cons.mp h with h' | h'
        · exact absurd h' hip
        · exact h'
      rw [ih hnd' (updateAt inv r (touchSeen t)) hrest, lookupIp_updateAt, if_neg hip]

/-- The offline loop maps every binding: kept when discovered, forced
OFFLINE otherwise. -/
theorem discoverOffline_lookup (inv : Inventory) (reachable : List String) (ip : String) :
    lookupIp (discoverOffline inv reachable) ip =
      if ip ∈ reachable then lookupIp inv ip
      else (lookupIp inv ip).map (fun m => { m with status := .offline }) := by
  induction inv with
  | nil => simp [discoverOffline, lookupIp]
  | cons p rest ih =>
    obtain ⟨k, v⟩ := p
    have hstep : discoverOffline ((k, v) :: rest) reachable =
        (if k ∈ reachable then (k, v) else (k, { v with status := MachineStatus.offline })) ::
          discoverOffline rest reachable := by
      simp [discoverOffline]
    rw [hstep]
    by_cases hk : k = ip
    · subst hk
      by_cases hmem : k ∈ reachable <;> simp [hmem, lookupIp_cons]
    · by_cases hmem : k ∈ reachable <;>
        simp only [hmem, if_pos, if_neg, ite_true, ite_false, lookupIp_cons, hk] <;>
        rw [ih]

/-- A fresh reachable IP ends the discovery cycle registered with the auto
defaults, status ONLINE and `last_seen` set by the touch loop. -/
theorem discover_lookup_new (cfg : DiscoveryCfg) (t1 t2 : ℕ) (inv : Inventory)
    (reachable : List String) (ip : String) (hnd : reachable.Nodup)
    (hin : ip ∈ reachable) (hnew : lookupIp inv ip = none) :
    lookupIp (discover_new_machines cfg t1 t2 inv reachable).1 ip =
      some { autoMachine cfg t1 ip with status := .online, last_seen := some t2 } := by
  have hreg : lookupIp (discoverRegister cfg t1 inv reachable).1 ip =
      some (autoMachine cfg t1 ip) := by
    rw [discoverRegister_spec cfg t1 reachable hnd inv]
    have hmemf : ip ∈ reachable.filter (fun i => (lookupIp inv i).isNone) :=
      List.mem_filter.mpr ⟨hin, by simp [hnew]⟩
    rw [lookupIp_append_none _ hnew]
    exact lookupIp_map_entries _ _ _ hmemf
  show lookupIp (discoverOffline (discoverTouch t2 (discoverRegister cfg t1 inv reachable).1
      reachable) reachable) ip = _
  rw [discoverOffline_lookup, if_pos hin, discoverTouch_lookup_mem t2 reachable hnd _ ip hin,
    hreg]
  simp [touchSeen, autoMachine]

/-- A known IP present in the reachable set keeps its record, with
`last_seen` refreshed and UNKNOWN flipped to ONLINE. -/
theorem discover_lookup_known (cfg : DiscoveryCfg) (t1 t2 : ℕ) (inv : Inventory)
    (reachable : List String) (ip : String) (m : Machine) (hnd : reachable.Nodup)
    (hin : ip ∈ reachable) (h : lookupIp inv ip = some m) :
    lookupIp (discover_new_machines cfg t1 t2 inv reachable).1 ip =
      some { m with
        last_seen := some t2
        status := if m.status = .unknown then .online else m.status } := by
  show lookupIp (discoverOffline (discoverTouch t2 (discoverRegister cfg t1 inv reachable).1
      reachable) reachable) ip = _
  rw [discoverOffline_lookup, if_pos hin, discoverTouch_lookup_mem t2 reachable hnd _ ip hin,
    discoverRegister_lookup_some cfg t1 reachable inv ip m h]
  rfl

/-- A known IP absent from the reachable set ends the cycle OFFLINE, with
everything else in its record untouched. -/
theorem discover_lookup_absent (cfg : DiscoveryCfg) (t1 t2 : ℕ) (inv : Inventory)
    (reachable : List String) (ip : String) (m : Machine)
    (hout : ip ∉ reachable) (h : lookupIp inv ip = some m) :
    lookupIp (discover_new_machines cfg t1 t2 inv reachable).1 ip =
      some { m with status := .offline } := by
  show lookupIp (discoverOffline (discoverTouch t2 (discoverRegister cfg t1 inv reachable).1
      reachable) reachable) ip = _
  rw [discoverOffline_lookup, if_neg hout, discoverTouch_lookup_not_mem t2 reachable _ ip hout,
    discoverRegister_lookup_some cfg t1 reachable inv ip m h]
  rfl

/-- A `filterMap` whose function is total-`some` on the list is a `map`. -/
theorem filterMap_eq_map_of_forall {α β : Type} (f : α → Option β) (g : α → β) :
    ∀ l : List α, (∀ a ∈ l, f a = some (g a)) → l.filterMap f = l.map g := by
  intro l h
  induction l with
  | nil => rfl
  | cons a rest ih =>
    simp only [List.filterMap_cons, h a (List.mem_cons_self a rest), List.map_cons]
    rw [ih (fun a' ha' => h a' (List.mem_cons_of_mem a ha'))]

/-- The machine list `discover_new_machines` returns: one record per
previously unknown reachable IP, in discovery order, in its end-of-cycle
state. -/
theorem discover_new_list (cfg : DiscoveryCfg) (t1 t2 : ℕ) (inv : Inventory)
    (reachable : List String) (hnd : reachable.Nodup) :
    (discover_new_machines cfg t1 t2 inv reachable).2 =
      (reachable.filter (fun ip => (lookupIp inv ip).isNone)).map
        (fun ip => { autoMachine cfg t1 ip with status := .online, last_seen := some t2 }) := by
  have hsnd : (discover_new_machines cfg t1 t2 inv reachable).2 =
      (discoverRegister cfg t1 inv reachable).2.filterMap
        (lookupIp (discover_new_machines cfg t1 t2 inv reachable).1) := rfl
  rw [hsnd, discoverRegister_spec cfg t1 reachable hnd inv]
  have hlook : ∀ ip ∈ reachable.filter (fun i => (lookupIp inv i).isNone),
      lookupIp (discover_new_machines cfg t1 t2 inv reachable).1 ip =
        some { autoMachine cfg t1 ip with status := .online, last_seen := some t2 } := by
    intro ip hip
    rcases List.mem_filter.mp hip with ⟨hin, hnone⟩
    exact discover_lookup_new cfg t1 t2 inv reachable ip hnd hin
      (Option.isNone_iff_eq_none.mp hnone)
  exact filterMap_eq_map_of_forall _ _ _ hlook

/-! ## C6: discovery reconciliation -/

/-- C6: on a duplicate-free reachable set, discovery registers and returns
exactly the reachable IPs not yet in the inventory, as records with status
ONLINE, `auto_discovered = true` and `last_seen = now`; every already-known
reachable IP keeps its record with `last_seen` refreshed and UNKNOWN flipped
to ONLINE; every known IP absent from the reachable set is set OFFLINE;
and repeating the reconciliation with the same reachable set registers
nothing new. -/
theorem c6_discovery_reconciliation (cfg : DiscoveryCfg) (t1 t2 t3 t4 : ℕ) (inv : Inventory)
    (reachable : List String) (hnd : reachable.Nodup) :
    (discover_new_machines cfg t1 t2 inv reachable).2 =
      (reachable.filter (fun ip => (lookupIp inv ip).isNone)).map
        (fun ip => { autoMachine cfg t1 ip with status := .online, last_seen := some t2 }) ∧
    (∀ mm ∈ (discover_new_machines cfg t1 t2 inv reachable).2,
      mm.status = .online ∧ mm.auto_discovered = true ∧ mm.last_seen = some t2) ∧
    (∀ ip m, lookupIp inv ip = some m → ip ∈ reachable →
      lookupIp (discover_new_machines cfg t1 t2 inv reachable).1 ip =
        some { m with
          last_seen := some t2
          status := if m.status = .unknown then .online else m.status }) ∧
    (∀ ip m, lookupIp inv ip = some m → ip ∉ reachable →
      lookupIp (discover_new_machines cfg t1 t2 inv reachable).1 ip =
        some { m with status := .offline }) ∧
    (discover_new_machines cfg t3 t4
      (discover_new_machines cfg t1 t2 inv reachable).1 reachable).2 = [] := by
  refine ⟨discover_new_list cfg t1 t2 inv reachable hnd, ?_, ?_, ?_, ?_⟩
  · intro mm hmm
    rw [discover_new_list cfg t1 t2 inv reachable hnd] at hmm
    rcases List.mem_map.mp hmm with ⟨ip, -, rfl⟩
    exact ⟨rfl, rfl, rfl⟩
  · intro ip m h hin
    exact discover_lookup_known cfg t1 t2 inv reachable ip m hnd hin h
  · intro ip m h hout
    exact discover_lookup_absent cfg t1 t2 inv reachable ip m hout h
  · rw [discover_new_list cfg t3 t4 _ reachable hnd]
    have hfil : reachable.filter
        (fun ip => (lookupIp (discover_new_machines cfg t1 t2 inv reachable).1 ip).isNone) = [] := by
      rw [List.filter_eq_nil_iff]
      intro ip hin
      cases hcase : lookupIp inv ip with
      | some m =>
        rw [discover_lookup_known cfg t1 t2 inv reachable ip m hnd hin hcase]
        simp
      | none =>
        rw [discover_lookup_new cfg t1 t2 inv reachable ip hnd hin hcase]
        simp
    rw [hfil]
    rfl

/-- A machine known from static configuration, never probed. -/
def c6known : Machine := { ip := "10.0.0.9", status := .unknown }

/-- A machine that will be absent from the reachable set. -/
def c6gone : Machine := { ip := "10.0.0.7", status := .online }

/-- The concrete inventory for the C6 witness. -/
def c6inv : Inventory := [("10.0.0.9", c6known), ("10.0.0.7", c6gone)]

/-- Witness for C6 at a concrete two-machine inventory and reachable set
`["10.0.0.5", "10.0.0.9"]`. -/
theorem c6_witness :
    (discover_new_machines {} 1 2 c6inv ["10.0.0.5", "10.0.0.9"]).2 =
      ((["10.0.0.5", "10.0.0.9"].filter
        (fun ip => (lookupIp c6inv ip).isNone)).map
        (fun ip => { autoMachine {} 1 ip with status := .online, last_seen := some 2 })) ∧
    lookupIp (discover_new_machines {} 1 2 c6inv ["10.0.0.5", "10.0.0.9"]).1 "10.0.0.9" =
      some { c6known with
        last_seen := some 2
        status := if c6known.status = .unknown then .online else c6known.status } ∧
    lookupIp (discover_new_machines {} 1 2 c6inv ["10.0.0.5", "10.0.0.9"]).1 "10.0.0.7" =
      some { c6gone with status := .offline } ∧
    (discover_new_machines {} 3 4
      (discover_new_machines {} 1 2 c6inv ["10.0.0.5", "10.0.0.9"]).1 ["10.0.0.5", "10.0.0.9"]).2 = [] :=
  ⟨(c6_discovery_reconciliation {} 1 2 3 4 c6inv _ (by decide)).1,
   (c6_discovery_reconciliation {} 1 2 3 4 c6inv _ (by decide)).2.2.1 "10.0.0.9" c6known
     (by decide) (by decide),
   (c6_discovery_reconciliation {} 1 2 3 4 c6inv _ (by decide)).2.2.2.1 "10.0.0.7" c6gone
     (by decide) (by decide),
   (c6_discovery_reconciliation {} 1 2 3 4 c6inv _ (by decide)).2.2.2.2⟩

/-! ## C1: the DEGRADED invariant -/

/-- On a successful session, the metric fields of the collected record are
exactly the probe results. -/
theorem collect_sync_some_fields (s : SshSession) (now : ℕ) (m : Machine) :
    (collect_sync (some s) now m).cpu = s.cpuResult ∧
    (collect_sync (some s) now m).memory = s.memResult ∧
    (collect_sync (some s) now m).disks = collect_disks s.df_out := by
  simp only [collect_sync]
  by_cases hcond : s.cpuResult.usage_percent > (90 : ℚ) ∨ s.memResult.usage_percent > (90 : ℚ) <;>
    simp [hcond, foldl_diskEscalate_fields]

/-- A successful collection can only leave the record DEGRADED when the
freshly collected values breach the threshold rule. -/
theorem collect_sync_some_degraded (s : SshSession) (now : ℕ) (m : Machine)
    (h : (collect_sync (some s) now m).status = .degraded) :
    degradedBreach (collect_sync (some s) now m) := by
  obtain ⟨hcpu, hmem, hdisks⟩ := collect_sync_some_fields s now m
  unfold degradedBreach
  rw [hcpu, hmem, hdisks]
  by_cases hcond : s.cpuResult.usage_percent > (90 : ℚ) ∨ s.memResult.usage_percent > (90 : ℚ)
  · rcases hcond with h' | h'
    · exact .inl h'
    · exact .inr (.inl h')
  · simp only [collect_sync, hcond, ite_false, if_neg] at h
    rcases foldl_diskEscalate_degraded _ _ h with h' | h'
    · simp at h'
    · exact .inr (.inr h')

/-- The soundness property C1 demands of one record: DEGRADED only ever
together with a breach in the record's own (most recently written) metric
values. -/
def DegradedSound (m : Machine) : Prop := m.status = .degraded → degradedBreach m

instance (m : Machine) : Decidable (DegradedSound m) := by
  unfold DegradedSound; infer_instance

/-- The inventory-wide C1 invariant. -/
def DegradedInv (inv : Inventory) : Prop := ∀ p ∈ inv, DegradedSound p.2

instance (inv : Inventory) : Decidable (DegradedInv inv) := by
  unfold DegradedInv; infer_instance

/-- Collection preserves per-record soundness, whatever the session
outcome. -/
theorem degradedSound_collect_sync (session? : Option SshSession) (now : ℕ) (m : Machine)
    (h : DegradedSound m) : DegradedSound (collect_sync session? now m) := by
  cases session? with
  | none =>
    intro hdeg
    rw [collect_sync_none] at hdeg ⊢
    have hm : m.status = .degraded := by
      by_cases hu : m.status = MachineStatus.unknown
      · simp [hu] at hdeg
      · simp [hu] at hdeg
        exact hdeg
    have := h hm
    unfold degradedBreach at this ⊢
    simpa using this
  | some s => exact fun hdeg => collect_sync_some_degraded s now m hdeg

/-- The touch loop's per-record update preserves soundness. -/
theorem degradedSound_touchSeen (t : ℕ) (m : Machine) (h : DegradedSound m) :
    DegradedSound (touchSeen t m) := by
  intro hdeg
  unfold touchSeen at hdeg
  have hm : m.status = .degraded := by
    by_cases hu : m.status = MachineStatus.unknown <;> simp [hu] at hdeg
    · exact hdeg
  have := h hm
  unfold degradedBreach at this ⊢
  simpa [touchSeen] using this

/-- Forcing a record OFFLINE trivially preserves soundness. -/
theorem degradedSound_offline (m : Machine) :
    DegradedSound { m with status := MachineStatus.offline } := by
  intro hdeg
  simp at hdeg

/-- Auto-registered machines start UNKNOWN, hence sound. -/
theorem degradedSound_auto (cfg : DiscoveryCfg) (t : ℕ) (ip : String) :
    DegradedSound (autoMachine cfg t ip) := by
  intro hdeg
  simp [autoMachine] at hdeg

/-- `updateAt` with a soundness-preserving update preserves the
inventory-wide invariant. -/
theorem degradedInv_updateAt (inv : Inventory) (k : String) (f : Machine → Machine)
    (hf : ∀ m, DegradedSound m → DegradedSound (f m)) (h : DegradedInv inv) :
    DegradedInv (updateAt inv k f) := by
  intro p hp
  rcases List.mem_map.mp hp with ⟨q, hq, rfl⟩
  by_cases hk : q.1 = k
  · simp only [hk, if_pos]
    exact hf q.2 (h q hq)
  · simp only [hk, if_neg, ite_false]
    exact h q hq

/-- The registration phase preserves the invariant: it only appends
UNKNOWN-status auto machines. -/
theorem degradedInv_register (cfg : DiscoveryCfg) (t : ℕ) (reachable : List String)
    (inv : Inventory) (h : DegradedInv inv) :
    DegradedInv (discoverRegister cfg t inv reachable).1 := by
  induction reachable generalizing inv with
  | nil => exact h
  | cons r rest ih =>
    by_cases hr : (lookupIp inv r).isSome
    · simp only [discoverRegister, hr, if_pos]
      exact ih inv h
    · simp only [discoverRegister, hr, if_neg, Bool.false_eq_true]
      refine ih (inv ++ [(r, autoMachine cfg t r)]) ?_
      intro p hp
      rcases List.mem_append.mp hp with hp' | hp'
      · exact h p hp'
      · rcases List.mem_singleton.mp hp' with rfl
        exact degradedSound_auto cfg t r

/-- The touch loop preserves the invariant. -/
theorem degradedInv_touch (t : ℕ) (reachable : List String) (inv : Inventory)
    (h : DegradedInv inv) : DegradedInv (discoverTouch t inv reachable) := by
  induction reachable generalizing inv with
  | nil => exact h
  | cons r rest ih =>
    exact ih (updateAt inv r (touchSeen t))
      (degradedInv_updateAt inv r (touchSeen t) (degradedSound_touchSeen t) h)

/-- The offline loop preserves the invariant. -/
theorem degradedInv_offline (reachable : List String) (inv : Inventory)
    (h : DegradedInv inv) : DegradedInv (discoverOffline inv reachable) := by
  intro p hp
  rcases List.mem_map.mp hp with ⟨q, hq, rfl⟩
  by_cases hk : q.1 ∈ reachable
  · simp only [hk, if_pos]
    exact h q hq
  · simp only [hk, if_neg, ite_false]
    exact degradedSound_offline q.2

/-- The operations that write machine status: a collection of one machine
(`scheduler.py` lines 90-102 with `_collect_sync`, which also performs the
status recomputation) and one discovery reconciliation
(`network_scanner.py` lines 102-137). -/
inductive MonOp where
  | collect (ip : String) (session? : Option SshSession) (now : ℕ)
  | discover (cfg : DiscoveryCfg) (tNew tNow : ℕ) (reachable : List String)

/-- Effect of one operation on the inventory. -/
def applyOp (op : MonOp) (inv : Inventory) : Inventory :=
  match op with
  | .collect ip session? now => updateAt inv ip (collect_sync session? now)
  | .discover cfg t1 t2 reachable => (discover_new_machines cfg t1 t2 inv reachable).1

/-- C1: if every machine of the inventory satisfies "DEGRADED only with a
cpu > 90 / memory > 90 / some disk > 95 breach in its most recently written
metric values", then the inventory still satisfies it after any collection
(with any session outcome, which includes the status recomputation) and
after any discovery reconciliation: no operation ever sets DEGRADED without
such a breach holding in the values written by that same collection, and
operations that do not write metrics never introduce DEGRADED. -/
theorem c1_degraded_only_with_breach (inv : Inventory) (h : DegradedInv inv) (op : MonOp) :
    DegradedInv (applyOp op inv) := by
  cases op with
  | collect ip session? now =>
    exact degradedInv_updateAt inv ip (collect_sync session? now)
      (degradedSound_collect_sync session? now) h
  | discover cfg t1 t2 reachable =>
    exact degradedInv_offline reachable _
      (degradedInv_touch t2 reachable _ (degradedInv_register cfg t1 reachable inv h))

/-- A degraded machine whose stored snapshot does breach the rule. -/
def c1machine : Machine :=
  { ip := "10.0.0.2", status := .degraded, cpu := { usage_percent := 96 } }

/-- Witness for C1: the invariant holds on a concrete inventory holding a
breached DEGRADED machine and is preserved by a failing collection of it. -/
theorem c1_witness :
    DegradedInv (applyOp (.collect "10.0.0.2" none 5) [("10.0.0.2", c1machine)]) :=
  c1_degraded_only_with_breach [("10.0.0.2", c1machine)] (by decide)
    (.collect "10.0.0.2" none 5)

/-! ## C8: disks list -/

/-- `_collect_disks` never returns an empty list: a defaulted entry is
substituted when nothing was parsed. -/
theorem collect_disks_ne_nil (d : String) : collect_disks d ≠ [] := by
  have hdef : collect_disks d =
      if ((if d ≠ "" then (((d.trim).splitOn "\n").drop 1).filterMap parseDfLine else []) = [])
      then [{}]
      else (if d ≠ "" then (((d.trim).splitOn "\n").drop 1).filterMap parseDfLine else []) := rfl
  rw [hdef]
  by_cases h :
      ((if d ≠ "" then (((d.trim).splitOn "\n").drop 1).filterMap parseDfLine else []) = [])
  · rw [if_pos h]
    exact List.cons_ne_nil _ _
  · rw [if_neg h]
    exact h

/-- C8 counterexample: a machine registered by discovery and not yet
collected is readable through the inventory with an empty disks list — the
"at least one entry" guarantee only holds for records written by a
successful collection. -/
theorem c8_counterexample :
    (lookupIp (discover_new_machines {} 1 2 [] ["10.0.0.5"]).1 "10.0.0.5").map Machine.disks =
      some [] := by
  decide

/-- C8 amended: whatever the `df` output (including empty or unparsable),
`_collect_disks` returns at least one entry, so every machine record
written by a successful collection has a nonempty disks list; records that
were never successfully collected keep the model default `disks = []`. -/
theorem c8_collected_disks_nonempty (d : String) (s : SshSession) (now : ℕ) (m : Machine) :
    collect_disks d ≠ [] ∧ (collect_sync (some s) now m).disks ≠ [] := by
  refine ⟨collect_disks_ne_nil d, ?_⟩
  rw [(collect_sync_some_fields s now m).2.2]
  exact collect_disks_ne_nil s.df_out

/-! ## C3: a machine gone offline and the following collection cycle -/

/-- A known machine, online and already scanned once. -/
def c3machine : Machine := { ip := "10.0.0.2", status := .online, last_scan := some 5 }

/-- C3 counterexample: `c3machine` is absent from the discovery cycle's
reachable set, so its status becomes OFFLINE — but the following collection
cycle emits NO alert at all for it (it is filtered out of collection by
`scheduler.py` line 94, `status != "offline" or last_scan is None`), not
exactly one CRITICAL unreachable alert. -/
theorem c3_counterexample :
    (lookupIp (discover_new_machines {} 1 2 [("10.0.0.2", c3machine)] []).1 "10.0.0.2").map
        Machine.status = some .offline ∧
    (lookupIp (discover_new_machines {} 1 2 [("10.0.0.2", c3machine)] []).1 "10.0.0.2").map
        (machineCycleAlerts none 7 8 []) = some [] := by
  exact ⟨by decide, by decide⟩

/-- C3 amended: a known machine absent from the cycle's reachable set is
set OFFLINE by that discovery cycle.  In the following collection cycle,
an OFFLINE machine with `last_scan` set is skipped entirely and no alert of
any kind is emitted for it; an OFFLINE machine that has never been scanned
(`last_scan = None`, metrics still at the model defaults) is collected, and
when its session also fails, exactly one CRITICAL "unreachable" alert (the
`status` metric) and no cpu/memory/disk alerts are emitted for it. -/
theorem c3_offline_cycle_behaviour (cfg : DiscoveryCfg) (t1 t2 : ℕ) (inv : Inventory)
    (reachable : List String) (ip : String) (m : Machine)
    (session? : Option SshSession) (now t : ℕ) (hist : List Alert) (mm : Machine) :
    (lookupIp inv ip = some m → ip ∉ reachable →
      lookupIp (discover_new_machines cfg t1 t2 inv reachable).1 ip =
        some { m with status := .offline }) ∧
    (mm.status = .offline → mm.last_scan ≠ none →
      machineCycleAlerts session? now t hist mm = []) ∧
    (mm.status = .offline → mm.last_scan = none → mm.cpu.usage_percent = 0 →
      mm.memory.usage_percent = 0 → mm.disks = [] →
      machineCycleAlerts none now t hist mm =
        [create_alert .critical mm.ip (displayName mm) "Maschine offline"
          (displayName mm ++ " (" ++ mm.ip ++ ") ist nicht erreichbar") "status" 0 0 t]) := by
  refine ⟨fun h hout => discover_lookup_absent cfg t1 t2 inv reachable ip m hout h, ?_, ?_⟩
  · intro h1 h2
    have hcol : collectedThisCycle mm = false := by
      simp [collectedThisCycle, h1, h2]
    simp [machineCycleAlerts, hcol]
  · intro h1 h2 h3 h4 h5
    have hcol : collectedThisCycle mm = true := by
      simp [collectedThisCycle, h2]
    have hcs : collect_sync none now mm = { mm with status := .offline, last_scan := some now } := by
      rw [collect_sync_none]
      simp [h1]
    simp only [machineCycleAlerts, hcol, if_pos, ite_true, hcs]
    norm_num [check_machine, cpuAlerts, memoryAlerts, offlineAlerts, displayName, h3, h4, h5,
      cpu_critical, cpu_warning, memory_critical, memory_warning]

/-- The machine of `c3machine` after its discovery cycle set it OFFLINE. -/
def c3skipped : Machine := { ip := "10.0.0.2", status := .offline, last_scan := some 5 }

/-- An offline machine that was never scanned. -/
def c3fresh : Machine := { ip := "10.0.0.4", status := .offline }

/-- Witness for the amended C3 theorem at concrete machines. -/
theorem c3_witness :
    lookupIp (discover_new_machines {} 1 2 [("10.0.0.2", c3machine)] []).1 "10.0.0.2" =
      some { c3machine with status := .offline } ∧
    machineCycleAlerts none 7 8 [] c3skipped = [] ∧
    machineCycleAlerts none 7 8 [] c3fresh =
      [create_alert .critical c3fresh.ip (displayName c3fresh) "Maschine offline"
        (displayName c3fresh ++ " (" ++ c3fresh.ip ++ ") ist nicht erreichbar") "status" 0 0 8] :=
  ⟨(c3_offline_cycle_behaviour {} 1 2 [("10.0.0.2", c3machine)] [] "10.0.0.2" c3machine
      none 7 8 [] c3skipped).1 (by decide) (by decide),
   (c3_offline_cycle_behaviour {} 1 2 [("10.0.0.2", c3machine)] [] "10.0.0.2" c3machine
      none 7 8 [] c3skipped).2.1 (by decide) (by decide),
   (c3_offline_cycle_behaviour {} 1 2 [("10.0.0.2", c3machine)] [] "10.0.0.2" c3machine
      none 7 8 [] c3fresh).2.2 rfl rfl rfl rfl rfl⟩
